import Mathlib

/-!
Verification model of the transcript information-extraction engine
(backend/services/nlp.py).  The Python functions are embedded as
executable Lean definitions: strings are Lean strings, the compiled
regular expressions are values of a small regex AST evaluated by a
backtracking matcher with Python re semantics (leftmost match, greedy
quantifiers, alternatives tried left to right), dictionaries with the
nine fixed keys become association lists, and the optional spaCy
annotation becomes an optional record of entity spans and sentences.
-/

/-! ## Python string primitives (ASCII semantics, as exercised by the code) -/

/-- Word character for the regex word boundary, the ASCII part of re \w. -/
def isWordChar (c : Char) : Bool := c.isAlphanum || c == '_'

/-- Whitespace for re \s and str.strip / str.split. -/
def isSpaceChar (c : Char) : Bool :=
  c == ' ' || c == '\t' || c == '\n' || c == '\r' || c == '\x0B' || c == '\x0C'

/-- Python str.lower, ASCII. -/
def pyLower (s : String) : String := String.mk (s.data.map Char.toLower)

/-- Python str.strip with no argument: drop whitespace from both ends. -/
def pyStrip (s : String) : String :=
  String.mk (((s.data.dropWhile isSpaceChar).reverse.dropWhile isSpaceChar).reverse)

/-- Python substring containment: needle occurring inside hay. -/
def listContainsSub : List Char → List Char → Bool
  | [], needle => needle.isPrefixOf ([] : List Char)
  | c :: t, needle => needle.isPrefixOf (c :: t) || listContainsSub t needle

/-- Python test sub in hay on strings. -/
def strContains (hay sub : String) : Bool := listContainsSub hay.data sub.data

/-- Index of the first occurrence of needle in hay, if any. -/
def listFindIdx : List Char → List Char → Option Nat
  | [], needle => if needle.isPrefixOf ([] : List Char) then some 0 else none
  | c :: t, needle =>
    if needle.isPrefixOf (c :: t) then some 0
    else (listFindIdx t needle).map (· + 1)

/-- Index of the last occurrence of needle in hay, if any. -/
def listRfindAux : List Char → List Char → Nat → Option Nat → Option Nat
  | [], needle, i, acc => if needle.isPrefixOf ([] : List Char) then some i else acc
  | c :: t, needle, i, acc =>
    listRfindAux t needle (i + 1) (if needle.isPrefixOf (c :: t) then some i else acc)

/-- Python str.find: first index or -1. -/
def pyFindI (s sub : String) : Int :=
  match listFindIdx s.data sub.data with
  | some n => (n : Int)
  | none => -1

/-- Python str.rfind: last index or -1. -/
def pyRfindI (s sub : String) : Int :=
  match listRfindAux s.data sub.data 0 none with
  | some n => (n : Int)
  | none => -1

/-- Python str.title: letters after a non-letter are uppercased, the rest lowercased. -/
def pyTitleAux : List Char → Bool → List Char
  | [], _ => []
  | c :: t, prevAlpha =>
    (if c.isAlpha then (if prevAlpha then c.toLower else c.toUpper) else c) ::
      pyTitleAux t c.isAlpha

/-- Python str.title on strings. -/
def pyTitle (s : String) : String := String.mk (pyTitleAux s.data false)

/-- Python str.split with no argument: split on whitespace runs, no empty tokens. -/
def wsSplitAux : List Char → List Char → List String
  | [], acc => if acc.isEmpty then [] else [String.mk acc.reverse]
  | c :: t, acc =>
    if isSpaceChar c then
      if acc.isEmpty then wsSplitAux t []
      else String.mk acc.reverse :: wsSplitAux t []
    else wsSplitAux t (c :: acc)

/-- Python str.split() on a string. -/
def pySplitWs (s : String) : List String := wsSplitAux s.data []

/-- Python str.split with a dot argument: empty pieces are kept. -/
def splitDotAux : List Char → List Char → List String
  | [], acc => [String.mk acc.reverse]
  | c :: t, acc =>
    if c == '.' then String.mk acc.reverse :: splitDotAux t []
    else splitDotAux t (c :: acc)

/-- Python transcript.split with a dot. -/
def pySplitDot (s : String) : List String := splitDotAux s.data []

/-- Python int on a digit string (the code only applies it to all-digit
regex captures). -/
def digitsToNatAux : List Char → Nat → Nat
  | [], acc => acc
  | c :: t, acc => digitsToNatAux t (acc * 10 + (c.toNat - 48))

/-- Python int on strings. -/
def pyToNat (s : String) : Nat := digitsToNatAux s.data 0

/-- Last n elements of a list, Python l[-n:]. -/
def takeLast (n : Nat) (l : List α) : List α := l.drop (l.length - n)

/-- Fold computing the maximum, Python max on a nonempty list. -/
def listMax1 : Nat → List Nat → Nat
  | x, [] => x
  | x, y :: t => listMax1 (max x y) t

/-- Fold computing the minimum, Python min on a nonempty list. -/
def listMin1 : Nat → List Nat → Nat
  | x, [] => x
  | x, y :: t => listMin1 (min x y) t

/-- Python str.isdigit: nonempty and all characters digits. -/
def pyIsDigit (s : String) : Bool := !s.data.isEmpty && s.data.all Char.isDigit

/-! ## Regex AST

One constructor per construct used by the compiled patterns of nlp.py.
lit matches a literal exactly; ilit matches it case-insensitively (its
characters are stored lowercase, mirroring re.IGNORECASE). -/

inductive RE where
  | fail
  | eps
  | cls (p : Char → Bool)
  | lit (s : List Char)
  | ilit (s : List Char)
  | cat (a b : RE)
  | alt (a b : RE)
  | opt (a : RE)
  | star (a : RE)
  | rep (lo hi : Nat) (a : RE)
  | grp (n : Nat) (a : RE)
  | wb
  | bol

/-- Matcher state: the character just before the current position (for word
boundaries and multiline anchors), the remaining input, and the captured
groups collected so far (latest first). -/
structure MSt where
  prev : Option Char
  rest : List Char
  grps : List (Nat × String)
deriving DecidableEq

/-- Consume an exact literal. Returns the state after it, if it is a prefix. -/
def litConsume : List Char → Option Char → List Char → Option (Option Char × List Char)
  | [], prev, rest => some (prev, rest)
  | c :: cs, _, rest =>
    match rest with
    | [] => none
    | r :: rs => if r == c then litConsume cs (some r) rs else none

/-- Consume a literal case-insensitively (pattern stored lowercase). -/
def ilitConsume : List Char → Option Char → List Char → Option (Option Char × List Char)
  | [], prev, rest => some (prev, rest)
  | c :: cs, _, rest =>
    match rest with
    | [] => none
    | r :: rs => if r.toLower == c then ilitConsume cs (some r) rs else none

/-- Backtracking matcher.  Returns all ways the expression can match a prefix
of the remaining input, as a list of successor states in Python re priority
order: greedy quantifiers produce longer matches first, alternatives are
tried left to right.  The fuel bounds the call depth; every star iteration
must consume at least one character (as all starred subexpressions here do),
so the generous fuel chosen by the callers below is never exhausted. -/
def reRun : Nat → RE → MSt → List MSt
  | 0, _, _ => []
  | _ + 1, .fail, _ => []
  | _ + 1, .eps, st => [st]
  | _ + 1, .cls p, st =>
    match st.rest with
    | [] => []
    | c :: t => if p c then [⟨some c, t, st.grps⟩] else []
  | _ + 1, .lit s, st =>
    match litConsume s st.prev st.rest with
    | some (pr, r) => [⟨pr, r, st.grps⟩]
    | none => []
  | _ + 1, .ilit s, st =>
    match ilitConsume s st.prev st.rest with
    | some (pr, r) => [⟨pr, r, st.grps⟩]
    | none => []
  | f + 1, .cat a b, st => (reRun f a st).flatMap (fun st1 => reRun f b st1)
  | f + 1, .alt a b, st => reRun f a st ++ reRun f b st
  | f + 1, .opt a, st => reRun f a st ++ [st]
  | f + 1, .star a, st =>
    ((reRun f a st).filter (fun st1 => st1.rest.length < st.rest.length)).flatMap
      (fun st1 => reRun f (.star a) st1) ++ [st]
  | f + 1, .rep lo hi a, st =>
    match hi with
    | 0 => if lo == 0 then [st] else []
    | h + 1 =>
      (reRun f a st).flatMap (fun st1 => reRun f (.rep (lo - 1) h a) st1) ++
        (if lo == 0 then [st] else [])
  | f + 1, .grp n a, st =>
    (reRun f a st).map (fun st1 =>
      { st1 with grps :=
          (n, String.mk (st.rest.take (st.rest.length - st1.rest.length))) :: st1.grps })
  | _ + 1, .wb, st =>
    let before := match st.prev with | none => false | some c => isWordChar c
    let after := match st.rest with | [] => false | c :: _ => isWordChar c
    if before != after then [st] else []
  | _ + 1, .bol, st =>
    match st.prev with
    | none => [st]
    | some c => if c == '\n' then [st] else []

/-- Fuel ample for any pattern of this file on the given input. -/
def reFuel (s : List Char) : Nat := 4 * s.length + 1000

/-- First match of the pattern at the current position, by priority. -/
def reMatchHere (r : RE) (prev : Option Char) (s : List Char) : Option MSt :=
  (reRun (reFuel s) r ⟨prev, s, []⟩).head?

/-- A regex match: start offset, matched text (group 0), captured groups. -/
structure RMatch where
  start : Nat
  matched : String
  grps : List (Nat × String)
deriving DecidableEq

/-- re.search: try every start position left to right, return the first match. -/
def reSearchAux (r : RE) : Option Char → List Char → Nat → Option RMatch
  | prev, [], i =>
    match reMatchHere r prev [] with
    | some st => some ⟨i, String.mk (([] : List Char).take (0 - st.rest.length)), st.grps⟩
    | none => none
  | prev, c :: t, i =>
    match reMatchHere r prev (c :: t) with
    | some st =>
      some ⟨i, String.mk ((c :: t).take ((c :: t).length - st.rest.length)), st.grps⟩
    | none => reSearchAux r (some c) t (i + 1)

/-- re.search on a string. -/
def reSearch (r : RE) (s : String) : Option RMatch := reSearchAux r none s.data 0

/-- re.match: anchored at the start (validate_email uses this). -/
def reMatchStart (r : RE) (s : String) : Bool := (reMatchHere r none s.data).isSome

/-- m.group n for a capturing group. -/
def groupGet (m : RMatch) (n : Nat) : Option String :=
  (m.grps.find? (fun g => g.1 == n)).map (fun g => g.2)

/-- re.findall: successive non-overlapping matches; yields group 1 when the
pattern has one group (RECENT_YEAR), the whole match when it has none
(EMAIL). -/
def reFindallAux (r : RE) (g1 : Bool) : Nat → Option Char → List Char → List String
  | 0, _, _ => []
  | f + 1, prev, s =>
    match reSearchAux r prev s 0 with
    | none => []
    | some m =>
      let item := if g1 then (groupGet m 1).getD "" else m.matched
      let skip := m.start + max m.matched.length 1
      let newPrev := (s.take skip).getLast?
      item :: reFindallAux r g1 f (match newPrev with | some c => some c | none => prev) (s.drop skip)

/-- re.findall on a string. -/
def reFindall (r : RE) (g1 : Bool) (s : String) : List String :=
  reFindallAux r g1 (s.length + 1) none s.data

/-- re.sub with an empty replacement: delete every non-overlapping match. -/
def reSubAux (r : RE) : Nat → Option Char → List Char → List Char
  | 0, _, s => s
  | f + 1, prev, s =>
    match reSearchAux r prev s 0 with
    | none => s
    | some m =>
      let keep := s.take m.start
      if m.matched.length == 0 then
        keep ++ (s.drop m.start).take 1 ++
          reSubAux r f ((s.take (m.start + 1)).getLast?) (s.drop (m.start + 1))
      else
        let skip := m.start + m.matched.length
        keep ++ reSubAux r f ((s.take skip).getLast?) (s.drop skip)

/-- re.sub of a pattern by the empty string, on a string. -/
def reSubAll (r : RE) (s : String) : String :=
  String.mk (reSubAux r (s.length + 1) none s.data)

/-! ## Pattern construction helpers -/

def chR (c : Char) : RE := .lit [c]

def strR (s : String) : RE := .lit s.data

/-- Case-insensitive literal; the argument is written lowercase. -/
def istrR (s : String) : RE := .ilit s.data

def altListR : List RE → RE
  | [] => .fail
  | [r] => r
  | r :: rs => .alt r (altListR rs)

def catListR : List RE → RE
  | [] => .eps
  | [r] => r
  | r :: rs => .cat r (catListR rs)

def plusR (r : RE) : RE := .cat r (.star r)

def digitR : RE := .cls Char.isDigit

def spaceR : RE := .cls isSpaceChar

/-! ## Compiled patterns (nlp.py lines 14-23) -/

/-- EMAIL_PATTERN: word boundary, local part, at sign, domain, dot, a
two-or-more letter class (which in the source also admits a pipe), word
boundary. -/
def emailRE : RE :=
  catListR [.wb,
    plusR (.cls (fun c => c.isAlphanum || c == '.' || c == '_' || c == '%' || c == '+' || c == '-')),
    chR '@',
    plusR (.cls (fun c => c.isAlphanum || c == '.' || c == '-')),
    chR '.',
    .cls (fun c => c.isAlpha || c == '|'),
    plusR (.cls (fun c => c.isAlpha || c == '|')),
    .wb]

/-- Separator class inside PHONE_PATTERN. -/
def phoneSepR : RE := .cls (fun c => c == '-' || c == '.' || isSpaceChar c)

/-- PHONE_PATTERN: optional country-code group, optional parenthesis, three
digits, optional parenthesis and separator, three digits, separator, four
digits. -/
def phoneRE : RE :=
  catListR [
    .opt (.grp 1 (catListR [.opt (chR '+'), .rep 1 3 digitR, .opt phoneSepR])),
    .opt (chR '('), .rep 3 3 digitR, .opt (chR ')'), .opt phoneSepR,
    .rep 3 3 digitR, .opt phoneSepR, .rep 4 4 digitR]

/-- YEAR_PATTERN: a 19xx or 20xx four-digit group between word boundaries. -/
def yearRE : RE :=
  catListR [.wb,
    .grp 1 (.alt (catListR [strR "19", digitR, digitR]) (catListR [strR "20", digitR, digitR])),
    .wb]

/-- RECENT_YEAR_PATTERN: 20 then a digit 0-3 then any digit, between word
boundaries. -/
def recentYearRE : RE :=
  catListR [.wb,
    .grp 1 (catListR [strR "20", .cls (fun c => '0' ≤ c && c ≤ '3'), digitR]),
    .wb]

/-- years or yrs with an optional s, case-insensitive. -/
def yearsWordR : RE :=
  .alt (.cat (istrR "year") (.opt (istrR "s"))) (.cat (istrR "yr") (.opt (istrR "s")))

/-- EXPERIENCE_PATTERNS, first: digits, years-word, optional of, experience. -/
def exp1RE : RE :=
  catListR [.grp 1 (plusR digitR), .star spaceR, yearsWordR, .star spaceR,
    .opt (.cat (istrR "of") (.star spaceR)), istrR "experience"]

/-- EXPERIENCE_PATTERNS, second: experience, optional of, digits, years-word. -/
def exp2RE : RE :=
  catListR [istrR "experience", .star spaceR, .opt (.cat (istrR "of") (.star spaceR)),
    .grp 1 (plusR digitR), .star spaceR, yearsWordR]

/-- EXPERIENCE_PATTERNS, third: digits, years-word, in or working. -/
def exp3RE : RE :=
  catListR [.grp 1 (plusR digitR), .star spaceR, yearsWordR, .star spaceR,
    .alt (istrR "in") (istrR "working")]

/-! ## Lexicons (nlp.py lines 26-76) -/

/-- The city gazetteer alternation of CITY_PATTERN, in source order. -/
def CITY_NAMES : List String :=
  ["chennai", "mumbai", "delhi", "bangalore", "hyderabad", "pune", "kolkata", "ahmedabad",
   "jaipur", "surat", "lucknow", "kanpur", "nagpur", "indore", "thane", "bhopal",
   "visakhapatnam", "patna", "vadodara", "ghaziabad", "ludhiana", "agra", "nashik",
   "faridabad", "meerut", "rajkot", "varanasi", "srinagar", "amritsar", "jodhpur",
   "raipur", "allahabad", "coimbatore", "jabalpur", "gwalior", "vijayawada", "madurai",
   "kota", "guwahati", "chandigarh", "solapur", "hubli", "bareilly", "moradabad",
   "gurgaon", "aligarh", "jalandhar", "tiruchirappalli", "bhubaneswar", "salem",
   "warangal", "thiruvananthapuram", "bhiwandi", "saharanpur", "gorakhpur", "guntur",
   "bikaner", "amravati", "noida", "bhavnagar", "dehradun", "kolhapur", "ajmer",
   "gulbarga", "jamnagar", "udaipur", "maheshtala", "tirunelveli", "davanagere",
   "kozhikode", "akola", "kurnool", "rajahmundry", "ballari", "agartala", "bhagalpur",
   "latur", "dhule", "korba", "bhimavaram", "panvel", "bhatpara", "machilipatnam",
   "raichur", "puducherry", "pali", "tumkur", "bharatpur", "ichalkaranji", "parbhani",
   "hapur", "sirsa", "baripada", "budaun", "jagdalpur", "motihari", "rourkela",
   "baghpat", "adoni", "ujjain", "sangli", "lahar", "ratlam", "dharmavaram",
   "kashipur", "sujangarh", "masaurhi", "wadi"]

/-- CITY_PATTERN: the gazetteer alternation between word boundaries,
case-insensitive. -/
def cityRE : RE :=
  catListR [.wb, .grp 1 (altListR (CITY_NAMES.map istrR)), .wb]

/-- EXCLUDED_LOCATION_TERMS. -/
def EXCLUDED_LOCATION_TERMS : List String :=
  ["python", "java", "javascript", "react", "angular", "vue", "node", "sql", "mongodb",
   "postgresql", "mysql", "aws", "azure", "docker", "kubernetes", "git", "linux",
   "html", "css", "typescript", "c++", "c#", ".net", "spring", "django", "flask",
   "fastapi", "tensorflow", "pytorch", "pandas", "numpy", "machine learning", "ai",
   "data science", "api", "rest", "graphql", "json", "xml", "http", "https",
   "india", "south india", "north india", "east india", "west india", "usa", "uk",
   "united states", "us", "programming", "code", "software", "developer"]

/-- SKILLS_KEYWORDS (a Python set; only membership and a finally-sorted
result depend on it, so list order is irrelevant). -/
def SKILLS_KEYWORDS : List String :=
  ["python", "java", "javascript", "react", "angular", "vue", "node", "sql", "mongodb",
   "postgresql", "mysql", "aws", "azure", "docker", "kubernetes", "git", "linux",
   "html", "css", "typescript", "c++", "c#", ".net", "spring", "django", "flask",
   "fastapi", "machine learning", "ai", "data science", "tensorflow", "pytorch",
   "pandas", "numpy", "redis", "elasticsearch", "kafka", "rabbitmq", "jenkins",
   "terraform", "ansible", "prometheus", "grafana", "splunk", "tableau", "powerbi"]

/-- SPECIALIZATIONS, in source order (the full-degree patterns alternate over
them in this order; the degree resolver re-sorts them by length). -/
def SPECIALIZATIONS : List String :=
  ["computer science engineering", "computer science and engineering", "cse",
   "computer science", "computer engineering",
   "information technology", "information technology engineering",
   "mechanical engineering", "civil engineering", "electrical engineering",
   "electronics engineering", "chemical engineering", "aerospace engineering",
   "biotechnology", "biomedical engineering", "data science", "artificial intelligence",
   "machine learning", "software engineering", "business administration", "management",
   "finance", "marketing", "accounting", "mathematics", "physics", "chemistry",
   "biology", "statistics", "economics", "it"]

/-- GRADUATION_KEYWORDS. -/
def GRADUATION_KEYWORDS : List String :=
  ["graduate", "graduation", "completed", "finished", "degree", "graduated",
   "pass out", "passout", "studied"]

/-- DEGREE_KEYWORDS. -/
def DEGREE_KEYWORDS : List String :=
  ["degree", "graduated", "completed", "studied", "education", "qualification",
   "bachelor", "master"]

/-- Python sorted with a length key and reverse set, which is stable: insert
each element after all earlier elements of greater or equal length. -/
def insertLenDesc (x : String) : List String → List String
  | [] => [x]
  | y :: ys => if y.length < x.length then x :: y :: ys else y :: insertLenDesc x ys

/-- Stable sort by decreasing length, as the degree resolver uses on
SPECIALIZATIONS. -/
def sortLenDesc (l : List String) : List String :=
  l.foldl (fun acc x => insertLenDesc x acc) []

/-- Lexicographic comparison of character lists by code point, the order
Python uses on strings. -/
def listLexLt : List Char → List Char → Bool
  | [], [] => false
  | [], _ :: _ => true
  | _ :: _, [] => false
  | a :: as, b :: bs =>
    if a < b then true else if b < a then false else listLexLt as bs

/-- Python string less-than. -/
def strLt (a b : String) : Bool := listLexLt a.data b.data

/-- Insert into a strictly ascending list, dropping duplicates: iterated, this
realises Python sorted over a set of strings. -/
def insertUniq (x : String) : List String → List String
  | [] => [x]
  | y :: ys =>
    if strLt x y then x :: y :: ys
    else if x = y then y :: ys
    else y :: insertUniq x ys

/-- Python sorted over the set of the elements: the strictly ascending
enumeration of the distinct elements. -/
def sortedUnique (l : List String) : List String :=
  l.foldl (fun acc x => insertUniq x acc) []

/-! ## Validators and simple field extractors (nlp.py lines 102-161) -/

/-- validate_email: re.match of EMAIL_PATTERN at the start of the string. -/
def validate_email (email : String) : Bool := reMatchStart emailRE email

/-- The characters kept by validate_phone when it strips separators:
re.sub removes everything but digits and the plus sign. -/
def phoneKeptChars (phone : String) : List Char :=
  phone.data.filter (fun c => c.isDigit || c == '+')

/-- validate_phone: between 10 and 15 characters survive separator
stripping. -/
def validate_phone (phone : String) : Bool :=
  decide (10 ≤ (phoneKeptChars phone).length ∧ (phoneKeptChars phone).length ≤ 15)

/-- validate_year: between 1950 and 2030. -/
def validate_year (year : Nat) : Bool := decide (1950 ≤ year ∧ year ≤ 2030)

/-- extract_email: all EMAIL_PATTERN matches; the first that re-validates is
returned lowercased and stripped. -/
def extract_email (transcript : String) : Option String :=
  ((reFindall emailRE false transcript).find? validate_email).map
    (fun email => pyStrip (pyLower email))

/-- extract_phone: first PHONE_PATTERN match, stripped; kept only when
validate_phone accepts it. -/
def extract_phone (transcript : String) : Option String :=
  match reSearch phoneRE transcript with
  | some m =>
    if validate_phone (pyStrip m.matched) then some (pyStrip m.matched) else none
  | none => none

/-- The loop body of extract_experience over EXPERIENCE_PATTERNS: first
pattern whose first match has a year count in (0, 50] wins. -/
def experienceGo : List RE → String → Option String
  | [], _ => none
  | p :: ps, t =>
    match reSearch p t with
    | some m =>
      if 0 < pyToNat ((groupGet m 1).getD "") ∧ pyToNat ((groupGet m 1).getD "") ≤ 50 then
        some (toString (pyToNat ((groupGet m 1).getD "")) ++ " years")
      else experienceGo ps t
    | none => experienceGo ps t

/-- extract_experience. -/
def extract_experience (transcript : String) : Option String :=
  experienceGo [exp1RE, exp2RE, exp3RE] transcript

/-- The found_skills list of extract_skills: multi-word skills located by
substring search, then single-word skills by token-set intersection, all
title-cased.  (Python iterates a set here, but the result is immediately
sorted and de-duplicated, so list order cannot matter.) -/
def foundSkillsList (transcript : String) : List String :=
  let tl := pyLower transcript
  let tokens := pySplitWs tl
  ((SKILLS_KEYWORDS.filter (fun k => strContains k " " && strContains tl k)).map pyTitle) ++
    ((SKILLS_KEYWORDS.filter (fun k => tokens.contains k)).map pyTitle)

/-- The sorted de-duplicated skills of extract_skills. -/
def uniqueSkillsList (transcript : String) : List String :=
  sortedUnique (foundSkillsList transcript)

/-- extract_skills. -/
def extract_skills (transcript : String) : Option String :=
  let uniq := uniqueSkillsList transcript
  if uniq.isEmpty then none else some (String.intercalate ", " uniq)


/-! ## The optional entity annotation (spaCy doc) -/

/-- An entity span of the annotation: its text and its label (PERSON, ORG,
GPE as used by the code). -/
structure PyEnt where
  text : String
  label : String
deriving DecidableEq

/-- The optional annotation: entity spans in document order and the sentence
segmentation, exactly the two views of a spaCy doc the code reads. -/
structure PyDoc where
  ents : List PyEnt
  sents : List String
deriving DecidableEq

/-! ## Entity-assisted extractors (nlp.py lines 163-263) -/

/-- First element of maximal length, Python max with a len key. -/
def maxByLen (x : String) (xs : List String) : String :=
  xs.foldl (fun b y => if b.length < y.length then y else b) x

/-- extract_location: the city gazetteer first; otherwise filtered GPE spans,
longest first-found span wins. -/
def extract_location (transcript : String) (doc : Option PyDoc) : Option String :=
  match reSearch cityRE transcript with
  | some m => some (pyTitle ((groupGet m 1).getD ""))
  | none =>
    match doc with
    | none => none
    | some d =>
      let locations := ((d.ents.filter (fun e => e.label == "GPE")).map (fun e => pyStrip e.text))
      let valid := locations.filter (fun loc =>
        !(EXCLUDED_LOCATION_TERMS.contains (pyLower loc)) &&
        decide (2 < loc.length) &&
        !(pyIsDigit loc) &&
        !(loc.data.any Char.isDigit))
      match valid with
      | [] => none
      | x :: xs => some (maxByLen x xs)

/-- A sentence contains a graduation-context keyword (checked lowercased). -/
def hasGradKeyword (s : String) : Bool :=
  GRADUATION_KEYWORDS.any (fun k => strContains (pyLower s) k)

/-- The contribution of one sentence to the context scan: the first
YEAR_PATTERN match, kept only when validate_year accepts it. -/
def firstValidYear (s : String) : Option Nat :=
  match reSearch yearRE s with
  | some m =>
    if validate_year (pyToNat ((groupGet m 1).getD "")) then
      some (pyToNat ((groupGet m 1).getD ""))
    else none
  | none => none

/-- The sentence loop of extract_graduation_year: first keyword sentence
whose first year is valid; keyword sentences without a valid first year are
passed over and the scan continues. -/
def gradCtxScan : List String → Option Nat
  | [] => none
  | s :: rest =>
    if hasGradKeyword s then
      match firstValidYear s with
      | some y => some y
      | none => gradCtxScan rest
    else gradCtxScan rest

/-- The fallback years of extract_graduation_year: every RECENT_YEAR_PATTERN
match that validate_year accepts. -/
def fallbackYears (transcript : String) : List Nat :=
  ((reFindall recentYearRE true transcript).map pyToNat).filter validate_year

/-- extract_graduation_year: context scan over the annotated sentences when
an annotation exists, otherwise (or when it yields nothing) the maximum
valid recent year of the whole transcript. -/
def extract_graduation_year (transcript : String) (doc : Option PyDoc) : Option Nat :=
  match (match doc with | some d => gradCtxScan d.sents | none => none) with
  | some y => some y
  | none =>
    match reFindall recentYearRE true transcript with
    | [] => none
    | _ :: _ =>
      match fallbackYears transcript with
      | [] => none
      | y :: ys => some (listMax1 y ys)

/-- The seven boilerplate lead-in patterns removed from college names,
case-insensitive, in source order. -/
def leadInREs : List RE :=
  [catListR [.wb, istrR "i graduated from", plusR spaceR],
   catListR [.wb, istrR "graduated from", plusR spaceR],
   catListR [.wb, istrR "i studied at", plusR spaceR],
   catListR [.wb, istrR "studied at", plusR spaceR],
   catListR [.wb, istrR "i am from", plusR spaceR],
   catListR [.wb, istrR "from", plusR spaceR],
   catListR [.wb, istrR "at", plusR spaceR]]

/-- Sequentially delete each lead-in pattern and strip, as the cleanup loop
of extract_college does. -/
def cleanLeadIns (s : String) : String :=
  leadInREs.foldl (fun c r => pyStrip (reSubAll r c)) s

/-- The regex-only fallback pattern of extract_college: a capitalized phrase
ending in a college-type word, between word boundaries, case-sensitive. -/
def collegeRE : RE :=
  catListR [.wb,
    .grp 1 (catListR [
      .cls (fun c => 'A' ≤ c && c ≤ 'Z'),
      plusR (.cls (fun c => c.isAlpha || isSpaceChar c)),
      altListR [strR "University", strR "College", strR "Institute", strR "School", strR "Academy"]]),
    .wb]

/-- The college-type keywords an ORG span must contain. -/
def COLLEGE_KEYWORDS : List String :=
  ["university", "college", "institute", "school", "academy"]

/-- The acceptance test of the ORG loop of extract_college: contains a
college-type keyword, has length 5 to 100, and its lowercase form is not one
of the three bare words university, college, school. -/
def collegeQualifies (org : String) : Bool :=
  COLLEGE_KEYWORDS.any (fun k => strContains (pyLower org) k) &&
  decide (5 ≤ org.length ∧ org.length ≤ 100) &&
  !(["university", "college", "school"].contains (pyLower org))

/-- The stripped ORG spans of the annotation, in document order. -/
def collegeOrgs (d : PyDoc) : List String :=
  (d.ents.filter (fun e => e.label == "ORG")).map (fun e => pyStrip e.text)

/-- The ORG loop of extract_college: first qualifying span, lead-ins
removed. -/
def collegeScan : List String → Option String
  | [] => none
  | org :: rest =>
    if collegeQualifies org then some (cleanLeadIns org) else collegeScan rest

/-- extract_college: regex fallback without an annotation (single candidate,
length-checked after cleanup), ORG scan with one. -/
def extract_college (transcript : String) (doc : Option PyDoc) : Option String :=
  match doc with
  | none =>
    match reSearch collegeRE transcript with
    | some m =>
      let college := cleanLeadIns (pyStrip ((groupGet m 1).getD ""))
      if 5 ≤ college.length ∧ college.length ≤ 100 then some college else none
    | none => none
  | some d => collegeScan (collegeOrgs d)

/-- The two self-introduction fallback patterns of extract_name,
case-insensitive and multiline; under IGNORECASE the capitalized word pieces
accept any letters. -/
def nameWordR : RE := .cat (.cls Char.isAlpha) (plusR (.cls Char.isAlpha))

/-- The captured name group: a word, then further whitespace-separated
words. -/
def nameGrpR : RE :=
  .grp 1 (.cat nameWordR (.star (.cat (plusR spaceR) nameWordR)))

/-- my name is / i am / i m (with apostrophe) / this is, then the name
group. -/
def nameRE1 : RE :=
  catListR [
    altListR [istrR "my name is", istrR "i am", istrR "i\x27m", istrR "this is"],
    plusR spaceR, nameGrpR]

/-- Line start, the name group, then here or speaking. -/
def nameRE2 : RE :=
  catListR [.bol, nameGrpR,
    .alt (.cat (plusR spaceR) (istrR "here")) (.cat (plusR spaceR) (istrR "speaking"))]

/-- The fallback loop of extract_name: first pattern whose captured group has
length 2 to 50, title-cased; a match of the wrong length falls through to the
next pattern. -/
def nameRegexGo : List RE → String → Option String
  | [], _ => none
  | r :: rs, t =>
    match reSearch r t with
    | some m =>
      let name := pyStrip ((groupGet m 1).getD "")
      if 2 ≤ name.length ∧ name.length ≤ 50 then some (pyTitle name)
      else nameRegexGo rs t
    | none => nameRegexGo rs t

/-- The PERSON loop of extract_name: first span of length 2 to 50 that is not
a bare pronoun and not all digits. -/
def nameScan : List String → Option String
  | [] => none
  | p :: rest =>
    if decide (2 ≤ p.length ∧ p.length ≤ 50) &&
       !(["i", "me", "my", "you", "he", "she", "we", "they"].contains (pyLower p)) &&
       !(pyIsDigit p) then some (pyTitle p)
    else nameScan rest

/-- extract_name. -/
def extract_name (transcript : String) (doc : Option PyDoc) : Option String :=
  match doc with
  | none => nameRegexGo [nameRE1, nameRE2] transcript
  | some d => nameScan ((d.ents.filter (fun e => e.label == "PERSON")).map (fun e => pyStrip e.text))


/-! ## Degree resolution heuristic (nlp.py lines 265-502) -/

/-- The degree in specialization pattern: the word degree, in, then a letter
and whitespace run closed by engineering, science, technology or
administration, case-insensitive. -/
def degreeInRE : RE :=
  catListR [.wb, istrR "degree", plusR spaceR, istrR "in", plusR spaceR,
    .grp 1 (.cat
      (plusR (.cls (fun c => ('a' ≤ c.toLower && c.toLower ≤ 'z') || isSpaceChar c)))
      (altListR [istrR "engineering", istrR "science", istrR "technology", istrR "administration"]))]

/-- master_indicators. -/
def MASTER_INDICATORS : List String :=
  ["master", "m.tech", "mtech", "m.e", "m e", "m.e.", "postgraduate", "pg", "masters"]

/-- bachelor_indicators. -/
def BACHELOR_INDICATORS : List String :=
  ["bachelor", "b.tech", "btech", "b.e", "b e", "b.e.", "undergraduate", "ug", "bachelors"]

/-- Some indicator occurs in the before-context or in the after-context. -/
def indicatorAny (inds : List String) (ctxBefore ctxAfter : String) : Bool :=
  inds.any (fun i => strContains ctxBefore i || strContains ctxAfter i)

/-- The bachelor refinement of the degree-in rule: the sub-type indicators
are checked in the order B.E., then B.Tech, then a generic bachelor word;
with none of them the specialization is emitted alone. -/
def bachelorSubtype (spec ctxBefore ctxAfter : String) : String :=
  if indicatorAny ["b.e", "b e", "b.e."] ctxBefore ctxAfter then
    "B.E. in " ++ pyTitle spec
  else if indicatorAny ["b.tech", "btech", "b.tech."] ctxBefore ctxAfter then
    "B.Tech in " ++ pyTitle spec
  else if indicatorAny ["bachelor", "bachelors"] ctxBefore ctxAfter then
    "Bachelor\x27s in " ++ pyTitle spec
  else pyTitle spec

/-- The indicator positions gathered when both families are present: rfind
in the before-context, find in the after-context offset by the match
position, for each indicator contained in that context. -/
def indicatorPositions (inds : List String) (ctxBefore ctxAfter : String) (degreePos : Nat) : List Int :=
  ((inds.filter (fun i => strContains ctxBefore i)).map (fun i => pyRfindI ctxBefore i)) ++
  ((inds.filter (fun i => strContains ctxAfter i)).map (fun i => (degreePos : Int) + pyFindI ctxAfter i))

/-- Distances of the positions to the degree mention, after the
non-negativity filter of the source (always satisfied, since every gathered
position comes from a successful find). -/
def indicatorDistances (ps : List Int) (degreePos : Nat) : List Nat :=
  (ps.filter (fun p => decide (0 ≤ p))).map (fun p => (p - (degreePos : Int)).natAbs)

/-- The both-families branch of the degree-in rule: the nearer family wins,
ties and the (unreachable) empty-position case fall back as in the source. -/
def degreeBothBranch (spec ctxBefore ctxAfter : String) (degreePos : Nat) : String :=
  let mp := indicatorPositions MASTER_INDICATORS ctxBefore ctxAfter degreePos
  let bp := indicatorPositions BACHELOR_INDICATORS ctxBefore ctxAfter degreePos
  if mp.isEmpty || bp.isEmpty then pyTitle spec
  else
    match indicatorDistances mp degreePos, indicatorDistances bp degreePos with
    | md :: mds, bd :: bds =>
      if listMin1 md mds < listMin1 bd bds then "M.Tech in " ++ pyTitle spec
      else bachelorSubtype spec ctxBefore ctxAfter
    | _, _ => pyTitle spec

/-- Pattern 1 of extract_degree: the degree in phrase rule.  The captured
phrase is compared with the specializations, longest first (stably sorted);
a specialization matches when either contains the other; the first match is
resolved against the level indicators found before the match and in a
200-character window after it. -/
def degreeInScan (transcript : String) : Option String :=
  match reSearch degreeInRE transcript with
  | none => none
  | some m =>
    let specMentioned := pyLower (pyStrip ((groupGet m 1).getD ""))
    match (sortLenDesc SPECIALIZATIONS).find?
        (fun spec => strContains specMentioned spec || strContains spec specMentioned) with
    | none => none
    | some spec =>
      let tl := pyLower transcript
      let degreePos := m.start
      let ctxBefore := String.mk (tl.data.take degreePos)
      let ctxAfter := String.mk ((tl.data.drop degreePos).take 200)
      let hasMaster := indicatorAny MASTER_INDICATORS ctxBefore ctxAfter
      let hasBachelor := indicatorAny BACHELOR_INDICATORS ctxBefore ctxAfter
      if hasMaster && !hasBachelor then some ("M.Tech in " ++ pyTitle spec)
      else if hasBachelor && !hasMaster then some (bachelorSubtype spec ctxBefore ctxAfter)
      else if hasMaster && hasBachelor then some (degreeBothBranch spec ctxBefore ctxAfter degreePos)
      else some (pyTitle spec)

/-- The specialization alternation, lowercase literals, source order (the
full patterns run on the lowercased transcript). -/
def specAltR : RE := altListR (SPECIALIZATIONS.map strR)

/-- The specialization alternation matched case-insensitively (the
abbreviation patterns run on original-case sentences with IGNORECASE). -/
def specAltCIR : RE := altListR (SPECIALIZATIONS.map istrR)

/-- bachelor of technology/engineering/science/arts/commerce, then the
specialization. -/
def full1RE : RE :=
  catListR [.wb,
    .grp 1 (catListR [strR "bachelor", plusR spaceR, strR "of", plusR spaceR,
      altListR [strR "technology", strR "engineering", strR "science", strR "arts", strR "commerce"]]),
    plusR spaceR, .opt (.cat (strR "in") (plusR spaceR)), .grp 2 specAltR]

/-- master of technology/... /business administration, then the
specialization. -/
def full2RE : RE :=
  catListR [.wb,
    .grp 1 (catListR [strR "master", plusR spaceR, strR "of", plusR spaceR,
      altListR [strR "technology", strR "engineering", strR "science", strR "arts", strR "commerce",
        catListR [strR "business", plusR spaceR, strR "administration"]]]),
    plusR spaceR, .opt (.cat (strR "in") (plusR spaceR)), .grp 2 specAltR]

/-- bachelor in specialization (the specialization is group 2, nested). -/
def full3RE : RE :=
  catListR [.wb, .grp 1 (catListR [strR "bachelor", plusR spaceR, strR "in", plusR spaceR, .grp 2 specAltR])]

/-- master in specialization. -/
def full4RE : RE :=
  catListR [.wb, .grp 1 (catListR [strR "master", plusR spaceR, strR "in", plusR spaceR, .grp 2 specAltR])]

/-- The canonical prefix chosen from the captured degree words of a full
pattern. -/
def fullDegreePref (capturedDegree : String) : String :=
  if strContains capturedDegree "technology" then
    (if strContains capturedDegree "bachelor" then "B.Tech" else "M.Tech")
  else if strContains capturedDegree "engineering" then
    (if strContains capturedDegree "bachelor" then "B.E." else "M.E.")
  else if strContains capturedDegree "science" then
    (if strContains capturedDegree "bachelor" then "B.Sc" else "M.Sc")
  else if strContains capturedDegree "arts" then
    (if strContains capturedDegree "bachelor" then "B.A." else "M.A.")
  else if strContains capturedDegree "commerce" then
    (if strContains capturedDegree "bachelor" then "B.Com" else "M.Com")
  else if strContains capturedDegree "business" then "MBA"
  else (if strContains capturedDegree "bachelor" then "Bachelor\x27s" else "Master\x27s")

/-- The loop over the four full patterns on the lowercased transcript: a
match with a nonempty second group wins; otherwise the next pattern is
tried. -/
def fullPatternsGo : List RE → String → Option String
  | [], _ => none
  | r :: rs, tl =>
    match reSearch r tl with
    | some m =>
      match groupGet m 2 with
      | some g2 =>
        if g2 ≠ "" then
          some (fullDegreePref (pyLower ((groupGet m 1).getD "")) ++ " in " ++ pyTitle (pyStrip g2))
        else fullPatternsGo rs tl
      | none => fullPatternsGo rs tl
    | none => fullPatternsGo rs tl

/-- b.tech abbreviation alternation, dot and space tolerant. -/
def btechAltR : RE :=
  .alt (catListR [istrR "b", .opt (chR '.'), .star spaceR, istrR "tech", .opt (chR '.')])
    (istrR "btech")

/-- m.tech / m.e abbreviation alternation. -/
def mtechAltR : RE :=
  altListR [catListR [istrR "m", .opt (chR '.'), .star spaceR, istrR "tech", .opt (chR '.')],
    istrR "mtech",
    catListR [istrR "m", .opt (chR '.'), .star spaceR, istrR "e", .opt (chR '.')]]

/-- b.sc abbreviation alternation. -/
def bscAltR : RE :=
  .alt (catListR [istrR "b", .opt (chR '.'), .star spaceR, istrR "sc", .opt (chR '.')])
    (istrR "bsc")

/-- m.sc abbreviation alternation. -/
def mscAltR : RE :=
  .alt (catListR [istrR "m", .opt (chR '.'), .star spaceR, istrR "sc", .opt (chR '.')])
    (istrR "msc")

/-- m.b.a abbreviation alternation. -/
def mbaAltR : RE :=
  .alt (catListR [istrR "m", .opt (chR '.'), .star spaceR, istrR "b", .opt (chR '.'),
      .star spaceR, istrR "a", .opt (chR '.')])
    (istrR "mba")

/-- abbrev_patterns: abbreviation, optional in, specialization, with the
canonical abbreviation name attached. -/
def abbrevPatterns : List (RE × String) :=
  [(catListR [.wb, .grp 1 btechAltR, plusR spaceR, .opt (.cat (istrR "in") (plusR spaceR)), .grp 2 specAltCIR], "B.Tech"),
   (catListR [.wb, .grp 1 mtechAltR, plusR spaceR, .opt (.cat (istrR "in") (plusR spaceR)), .grp 2 specAltCIR], "M.Tech"),
   (catListR [.wb, .grp 1 bscAltR, plusR spaceR, .opt (.cat (istrR "in") (plusR spaceR)), .grp 2 specAltCIR], "B.Sc"),
   (catListR [.wb, .grp 1 mscAltR, plusR spaceR, .opt (.cat (istrR "in") (plusR spaceR)), .grp 2 specAltCIR], "M.Sc")]

/-- simple_patterns: the bare abbreviations between word boundaries, paired
with their names. -/
def simplePatterns : List (RE × String) :=
  [(catListR [.wb, .grp 1 btechAltR, .wb], "B.Tech"),
   (catListR [.wb, .grp 1 mtechAltR, .wb], "M.Tech"),
   (catListR [.wb, .grp 1 bscAltR, .wb], "B.Sc"),
   (catListR [.wb, .grp 1 mscAltR, .wb], "M.Sc"),
   (catListR [.wb, .grp 1 mbaAltR, .wb], "MBA")]

/-- The inner loop of the same-sentence abbreviation rule: first abbreviation
pattern matching the sentence with a nonempty specialization group. -/
def abbrevTryPatterns : List (RE × String) → String → Option String
  | [], _ => none
  | (r, nm) :: rest, s =>
    match reSearch r s with
    | some m =>
      match groupGet m 2 with
      | some g2 =>
        if g2 ≠ "" then some (nm ++ " in " ++ pyTitle (pyStrip g2))
        else abbrevTryPatterns rest s
      | none => abbrevTryPatterns rest s
    | none => abbrevTryPatterns rest s

/-- A sentence contains a degree-context keyword (checked lowercased). -/
def hasDegreeKeyword (s : String) : Bool :=
  DEGREE_KEYWORDS.any (fun k => strContains (pyLower s) k)

/-- The sentence loop of the same-sentence abbreviation rule. -/
def abbrevSentScan : List String → Option String
  | [] => none
  | s :: rest =>
    if hasDegreeKeyword s then
      match abbrevTryPatterns abbrevPatterns s with
      | some r => some r
      | none => abbrevSentScan rest
    else abbrevSentScan rest

/-- Locate the first degree-keyword sentence matched by a simple abbreviation
pattern; the first matching pattern names the degree. -/
def simpleFindDegree : List String → Nat → Option (String × Nat)
  | [], _ => none
  | s :: rest, i =>
    if hasDegreeKeyword s then
      match simplePatterns.find? (fun pr => (reSearch pr.1 s).isSome) with
      | some pr => some (pr.2, i)
      | none => simpleFindDegree rest (i + 1)
    else simpleFindDegree rest (i + 1)

/-- The character offset of the located abbreviation in the transcript: the
source re-searches the b.tech simple pattern when the degree name contains
tech and the b.sc pattern otherwise, inside the located sentence, and adds
the position of that sentence found lowercased in the lowercased
transcript. -/
def computeDegreePos (transcript : String) (sents : List String) (idx : Nat) (degreeFound : String) : Option Nat :=
  match sents.get? idx with
  | none => none
  | some s =>
    let pat := if strContains (pyLower degreeFound) "tech"
      then catListR [.wb, .grp 1 btechAltR, .wb]
      else catListR [.wb, .grp 1 bscAltR, .wb]
    match reSearch pat s with
    | none => none
    | some dm =>
      match listFindIdx (pyLower transcript).data (pyLower s).data with
      | none => none
      | some charStart => some (charStart + dm.start)

/-- Degree-context cues of the window search. -/
def DEGREE_CONTEXT_KEYWORDS : List String :=
  ["degree", "studied", "graduated", "completed", "in", "of", "specialization",
   "major", "field", "subject", "branch"]

/-- Skills-context cues of the window search. -/
def SKILL_CONTEXT_KEYWORDS : List String :=
  ["skill", "know", "expert", "proficient", "experience with", "worked with",
   "proficient in", "good at"]

/-- The specialization loop over the 800-character window: first
longest-sorted specialization present in the window whose 120-character
neighborhood has a degree cue, or has no skills cue while the specialization
is longer than five characters. -/
def windowSpecGo (cw : String) (degreeFound : String) : List String → Option String
  | [] => none
  | spec :: rest =>
    if strContains cw spec then
      let specPos := (listFindIdx cw.data spec.data).getD 0
      let snipStop := min cw.length (specPos + spec.length + 60)
      let snippet := String.mk ((cw.data.drop (specPos - 60)).take (snipStop - (specPos - 60)))
      let hasDeg := DEGREE_CONTEXT_KEYWORDS.any (fun k => strContains snippet k)
      let hasSkill := SKILL_CONTEXT_KEYWORDS.any (fun k => strContains snippet k)
      if hasDeg || (!hasSkill && decide (5 < spec.length)) then
        some (degreeFound ++ " in " ++ pyTitle spec)
      else windowSpecGo cw degreeFound rest
    else windowSpecGo cw degreeFound rest

/-- The window search around the located abbreviation: 400 characters on
each side, lowercased. -/
def windowSpecScan (transcript : String) (degreeFound : String) (degreePos : Nat) : Option String :=
  let start := degreePos - 400
  let stop := min transcript.length (degreePos + 400)
  let cw := pyLower (String.mk ((transcript.data.drop start).take (stop - start)))
  windowSpecGo cw degreeFound (sortLenDesc SPECIALIZATIONS)

/-- Skill indicators of the adjacent-sentence search (a slightly different
list than the window search uses). -/
def ADJ_SKILL_INDICATORS : List String :=
  ["skill", "know", "expert", "proficient", "experience", "worked",
   "proficient in", "good at"]

/-- Degree indicators of the adjacent-sentence search. -/
def ADJ_DEGREE_INDICATORS : List String :=
  ["degree", "studied", "graduated", "completed", "in", "of", "specialization",
   "major", "field", "subject", "branch"]

/-- The specialization loop over one adjacent sentence. -/
def adjSpecGo (sentLower : String) (degreeFound : String) : List String → Option String
  | [] => none
  | spec :: rest =>
    if strContains sentLower spec then
      let hasSkill := ADJ_SKILL_INDICATORS.any (fun k => strContains sentLower k)
      let hasDeg := ADJ_DEGREE_INDICATORS.any (fun k => strContains sentLower k)
      if hasDeg || (!hasSkill && decide (5 < spec.length)) then
        some (degreeFound ++ " in " ++ pyTitle spec)
      else adjSpecGo sentLower degreeFound rest
    else adjSpecGo sentLower degreeFound rest

/-- The loop over the previous, current and next sentence indices. -/
def adjacentScan (sents : List String) (degreeFound : String) : List Nat → Option String
  | [] => none
  | idx :: rest =>
    match adjSpecGo (pyLower ((sents.get? idx).getD "")) degreeFound (sortLenDesc SPECIALIZATIONS) with
    | some r => some r
    | none => adjacentScan sents degreeFound rest

/-- extract_degree: the prioritized cascade.  Pattern 1 (degree in phrase),
then the four full degree-name patterns; with an annotation also the
same-sentence abbreviation rule and the abbreviation-plus-nearby-
specialization rule, returning the bare abbreviation when no specialization
is found. -/
def extract_degree (transcript : String) (doc : Option PyDoc) : Option String :=
  match degreeInScan transcript with
  | some r => some r
  | none =>
    match fullPatternsGo [full1RE, full2RE, full3RE, full4RE] (pyLower transcript) with
    | some r => some r
    | none =>
      match doc with
      | none => none
      | some d =>
        match abbrevSentScan d.sents with
        | some r => some r
        | none =>
          match simpleFindDegree d.sents 0 with
          | none => none
          | some (degreeFound, idx) =>
            let searchIndices := [idx - 1, idx, min (d.sents.length - 1) (idx + 1)]
            match computeDegreePos transcript d.sents idx degreeFound with
            | some degreePos =>
              match windowSpecScan transcript degreeFound degreePos with
              | some r => some r
              | none =>
                match adjacentScan d.sents degreeFound searchIndices with
                | some r => some r
                | none => some degreeFound
            | none =>
              match adjacentScan d.sents degreeFound searchIndices with
              | some r => some r
              | none => some degreeFound


/-! ## Extraction orchestrator (nlp.py lines 533-609) -/

/-- A value of the result dictionary: absent, a string field, or the integer
graduation year. -/
inductive FieldVal where
  | vnone
  | vstr (s : String)
  | vyear (n : Nat)
deriving DecidableEq

/-- Wrap an optional string field. -/
def fvS : Option String → FieldVal
  | none => .vnone
  | some s => .vstr s

/-- Wrap the optional graduation year. -/
def fvY : Option Nat → FieldVal
  | none => .vnone
  | some n => .vyear n

/-- The all-absent result returned for a too-short transcript, with the nine
keys in source order. -/
def allAbsentResult : List (String × FieldVal) :=
  [("name", .vnone), ("email", .vnone), ("phone", .vnone), ("college", .vnone),
   ("degree", .vnone), ("graduation_year", .vnone), ("experience", .vnone),
   ("location", .vnone), ("skills", .vnone)]

/-- The relevance keywords of the long-transcript sampler. -/
def SAMPLER_KEYWORDS : List String :=
  ["name", "i am", "my name", "from", "location", "live", "college",
   "university", "degree", "graduated", "graduate", "studied"]

/-- The document sampler: on transcripts over 2000 characters, dot-split
sentences that carry a relevance keyword or are short, capped at 25, plus
the first and last three sentences, joined and fed to the tagger; the first
2000 raw characters when no sentence qualifies. -/
def sampleDoc (transcript : String) (nlp : String → PyDoc) : PyDoc :=
  if 2000 < transcript.length then
    let sentences := ((pySplitDot transcript).map pyStrip).filter (fun s => s ≠ "")
    let relevant := sentences.filter (fun sent =>
      SAMPLER_KEYWORDS.any (fun k => strContains (pyLower sent) k) || sent.length < 100)
    if relevant.isEmpty then nlp (String.mk (transcript.data.take 2000))
    else nlp (String.intercalate ". " (relevant.take 25 ++ sentences.take 3 ++ takeLast 3 sentences))
  else nlp transcript

/-- extract_candidate_info.  The optional tagger stands for the lazily loaded
spaCy model: absent when loading failed, otherwise a function from the
sampled text to an annotation.  A transcript that is empty or shorter than
ten characters once stripped short-circuits to the all-absent result;
otherwise the dictionary keeps its nine literal keys, each updated by its
extractor.  The function is total: no input raises. -/
def extract_candidate_info (transcript : String) (nlp : Option (String → PyDoc)) :
    List (String × FieldVal) :=
  if transcript = "" ∨ (pyStrip transcript).length < 10 then allAbsentResult
  else
    let doc := nlp.map (sampleDoc transcript)
    [("name", fvS (extract_name transcript doc)),
     ("email", fvS (extract_email transcript)),
     ("phone", fvS (extract_phone transcript)),
     ("college", fvS (extract_college transcript doc)),
     ("degree", fvS (extract_degree transcript doc)),
     ("graduation_year", fvY (extract_graduation_year transcript doc)),
     ("experience", fvS (extract_experience transcript)),
     ("location", fvS (extract_location transcript doc)),
     ("skills", fvS (extract_skills transcript))]


/-! ## Helper lemmas -/

theorem listMax1_mem (l : List Nat) : ∀ x : Nat, listMax1 x l = x ∨ listMax1 x l ∈ l := by
  induction l with
  | nil => intro x; exact Or.inl rfl
  | cons y t ih =>
    intro x
    simp only [listMax1]
    rcases ih (max x y) with h | h
    · rcases max_choice x y with hm | hm
      · exact Or.inl (by rw [h, hm])
      · exact Or.inr (by rw [h, hm]; exact List.mem_cons_self y t)
    · exact Or.inr (List.mem_cons_of_mem y h)

theorem le_listMax1 (l : List Nat) : ∀ x : Nat, x ≤ listMax1 x l := by
  induction l with
  | nil => intro x; exact Nat.le_refl x
  | cons y t ih =>
    intro x
    simp only [listMax1]
    exact Nat.le_trans (Nat.le_max_left x y) (ih (max x y))

theorem listMax1_ub (l : List Nat) : ∀ x z : Nat, z ∈ l → z ≤ listMax1 x l := by
  induction l with
  | nil => intro x z h; cases h
  | cons y t ih =>
    intro x z h
    simp only [listMax1]
    rcases List.mem_cons.mp h with rfl | h2
    · exact Nat.le_trans (Nat.le_max_right x z) (le_listMax1 t (max x z))
    · exact ih (max x y) z h2

theorem fallbackYears_valid (t : String) : ∀ z ∈ fallbackYears t, validate_year z = true := by
  intro z hz
  exact (List.mem_filter.mp hz).2

theorem firstValidYear_valid (s : String) (y : Nat) (h : firstValidYear s = some y) :
    validate_year y = true := by
  unfold firstValidYear at h
  split at h
  next m _ =>
    split at h
    next hv => cases h; exact hv
    next => cases h
  next => cases h

theorem gradCtxScan_valid : ∀ (l : List String) (y : Nat),
    gradCtxScan l = some y → validate_year y = true := by
  intro l
  induction l with
  | nil => intro y h; cases h
  | cons s rest ih =>
    intro y h
    unfold gradCtxScan at h
    split at h
    · split at h
      next y2 hy2 => cases h; exact firstValidYear_valid s _ hy2
      next => exact ih y h
    · exact ih y h

theorem gradCtxScan_first (pre post : List String) (s : String) (y : Nat)
    (hpre : ∀ s0 ∈ pre, hasGradKeyword s0 = false ∨ firstValidYear s0 = none)
    (hkw : hasGradKeyword s = true) (hy : firstValidYear s = some y) :
    gradCtxScan (pre ++ s :: post) = some y := by
  induction pre with
  | nil => simp [gradCtxScan, hkw, hy]
  | cons p ps ih =>
    have hrest := ih (fun s0 h0 => hpre s0 (List.mem_cons_of_mem p h0))
    rcases hpre p (List.mem_cons_self p ps) with hp | hp
    · simpa [gradCtxScan, hp] using hrest
    · by_cases hk : hasGradKeyword p = true
      · simpa [gradCtxScan, hk, hp] using hrest
      · simpa [gradCtxScan, hk] using hrest

theorem collegeScan_first (pre post : List String) (org : String)
    (hpre : ∀ o ∈ pre, collegeQualifies o = false)
    (h : collegeQualifies org = true) :
    collegeScan (pre ++ org :: post) = some (cleanLeadIns org) := by
  induction pre with
  | nil => simp [collegeScan, h]
  | cons p ps ih =>
    have hp := hpre p (List.mem_cons_self p ps)
    have hrest := ih (fun o ho => hpre o (List.mem_cons_of_mem p ho))
    simpa [collegeScan, hp] using hrest

theorem experienceGo_sound : ∀ (ps : List RE) (t s : String),
    experienceGo ps t = some s → ∃ n : Nat, 0 < n ∧ n ≤ 50 ∧ s = toString n ++ " years" := by
  intro ps
  induction ps with
  | nil => intro t s h; cases h
  | cons p rest ih =>
    intro t s h
    unfold experienceGo at h
    split at h
    next m _ =>
      split at h
      next hn => cases h; exact ⟨_, hn.1, hn.2, rfl⟩
      next => exact ih t s h
    next => exact ih t s h

theorem listLexLt_nil_false : ∀ b : List Char, listLexLt b [] = false := by
  intro b; cases b <;> rfl

theorem listLexLt_trans : ∀ a b c : List Char,
    listLexLt a b = true → listLexLt b c = true → listLexLt a c = true := by
  intro a
  induction a with
  | nil =>
    intro b c _ hbc
    cases c with
    | nil => rw [listLexLt_nil_false b] at hbc; cases hbc
    | cons z zs => rfl
  | cons x xs ih =>
    intro b c hab hbc
    cases b with
    | nil => rw [listLexLt_nil_false (x :: xs)] at hab; cases hab
    | cons y ys =>
      cases c with
      | nil => rw [listLexLt_nil_false (y :: ys)] at hbc; cases hbc
      | cons z zs =>
        simp only [listLexLt] at hab hbc ⊢
        by_cases h1 : x < y
        · by_cases h2 : y < z
          · rw [if_pos (lt_trans h1 h2)]
          · by_cases h3 : z < y
            · rw [if_neg h2, if_pos h3] at hbc; cases hbc
            · have hyz : y = z := le_antisymm (not_lt.mp h3) (not_lt.mp h2)
              rw [← hyz, if_pos h1]
        · by_cases h1b : y < x
          · rw [if_neg h1, if_pos h1b] at hab; cases hab
          · have hxy : x = y := le_antisymm (not_lt.mp h1b) (not_lt.mp h1)
            rw [if_neg h1, if_neg h1b] at hab
            by_cases h2 : y < z
            · subst hxy; rw [if_pos h2]
            · by_cases h3 : z < y
              · rw [if_neg h2, if_pos h3] at hbc; cases hbc
              · have hyz : y = z := le_antisymm (not_lt.mp h3) (not_lt.mp h2)
                rw [if_neg h2, if_neg h3] at hbc
                subst hxy
                rw [← hyz, if_neg (lt_irrefl x), if_neg (lt_irrefl x)]
                exact ih ys zs hab hbc

theorem listLexLt_total : ∀ a b : List Char,
    listLexLt a b = false → a ≠ b → listLexLt b a = true := by
  intro a
  induction a with
  | nil =>
    intro b hf hne
    cases b with
    | nil => exact absurd rfl hne
    | cons y ys => cases hf
  | cons x xs ih =>
    intro b hf hne
    cases b with
    | nil => rfl
    | cons y ys =>
      simp only [listLexLt] at hf ⊢
      by_cases h1 : x < y
      · rw [if_pos h1] at hf; cases hf
      · by_cases h2 : y < x
        · rw [if_pos h2]
        · have hxy : x = y := le_antisymm (not_lt.mp h2) (not_lt.mp h1)
          rw [if_neg h1, if_neg h2] at hf
          rw [if_neg h2, if_neg h1]
          subst hxy
          exact ih ys hf (fun h => hne (by rw [h]))

theorem strLt_trans (a b c : String) (h1 : strLt a b = true) (h2 : strLt b c = true) :
    strLt a c = true :=
  listLexLt_trans a.data b.data c.data h1 h2

theorem strLt_total (a b : String) (hf : strLt a b = false) (hne : a ≠ b) :
    strLt b a = true := by
  refine listLexLt_total a.data b.data hf (fun h => hne ?_)
  cases a; cases b; exact congrArg String.mk h

theorem mem_insertUniq (x b : String) : ∀ l : List String,
    b ∈ insertUniq x l → b = x ∨ b ∈ l := by
  intro l
  induction l with
  | nil =>
    intro h
    simp only [insertUniq, List.mem_singleton] at h
    exact Or.inl h
  | cons y ys ih =>
    intro h
    unfold insertUniq at h
    split at h
    · rcases List.mem_cons.mp h with rfl | h2
      · exact Or.inl rfl
      · exact Or.inr h2
    · split at h
      · exact Or.inr h
      · rcases List.mem_cons.mp h with rfl | h2
        · exact Or.inr (List.mem_cons_self _ _)
        · rcases ih h2 with h3 | h3
          · exact Or.inl h3
          · exact Or.inr (List.mem_cons_of_mem _ h3)

theorem insertUniq_sorted (x : String) : ∀ l : List String,
    List.Sorted (fun a b => strLt a b = true) l →
    List.Sorted (fun a b => strLt a b = true) (insertUniq x l) := by
  intro l
  induction l with
  | nil => intro _; simp [insertUniq]
  | cons y ys ih =>
    intro hs
    rw [List.sorted_cons] at hs
    obtain ⟨hy, hys⟩ := hs
    unfold insertUniq
    split
    next hlt =>
      rw [List.sorted_cons]
      refine ⟨?_, ?_⟩
      · intro b hb
        rcases List.mem_cons.mp hb with rfl | h2
        · exact hlt
        · exact strLt_trans x y b hlt (hy b h2)
      · rw [List.sorted_cons]; exact ⟨hy, hys⟩
    next hlt =>
      split
      next => rw [List.sorted_cons]; exact ⟨hy, hys⟩
      next hne =>
        rw [List.sorted_cons]
        refine ⟨?_, ih hys⟩
        intro b hb
        rcases mem_insertUniq x b ys hb with hbx | h2
        · rw [hbx]; exact strLt_total x y (by simpa using hlt) hne
        · exact hy b h2

theorem sortedUnique_sorted (l : List String) :
    List.Sorted (fun a b => strLt a b = true) (sortedUnique l) := by
  unfold sortedUnique
  have h : ∀ acc : List String, List.Sorted (fun a b => strLt a b = true) acc →
      List.Sorted (fun a b => strLt a b = true) (l.foldl (fun a x => insertUniq x a) acc) := by
    induction l with
    | nil => intro acc hacc; exact hacc
    | cons x xs ih => intro acc hacc; exact ih (insertUniq x acc) (insertUniq_sorted x acc hacc)
  exact h [] List.sorted_nil

/-! ## Claim theorems -/

/-- C1: for every transcript and every state of the optional tagger,
extract_candidate_info returns a result whose keys are exactly the nine
fixed keys name, email, phone, college, degree, graduation_year,
experience, location, skills, in this order: no key is ever missing and no
other key is ever added. -/
theorem extract_candidate_info_nine_keys (t : String) (nlp : Option (String → PyDoc)) :
    (extract_candidate_info t nlp).map Prod.fst =
      ["name", "email", "phone", "college", "degree", "graduation_year",
       "experience", "location", "skills"] := by
  unfold extract_candidate_info
  split <;> rfl

/-- C2: a transcript that is empty or shorter than ten characters after
stripping whitespace short-circuits to the all-absent nine-field result; as
a total Lean function the embedding also witnesses that no exception is
involved, the short result being an ordinary value. -/
theorem short_transcript_all_absent (t : String) (nlp : Option (String → PyDoc))
    (h : (pyStrip t).length < 10) :
    extract_candidate_info t nlp = allAbsentResult := by
  unfold extract_candidate_info
  rw [if_pos (Or.inr h)]

/-- Witness for C2 at a concrete short transcript. -/
theorem short_transcript_all_absent_witness :
    extract_candidate_info "   hi   " none = allAbsentResult :=
  short_transcript_all_absent "   hi   " none (by decide)

/-- With no annotation, or with one whose graduation-context scan yields no
year, extract_graduation_year reduces to its whole-transcript fallback. -/
theorem extract_graduation_year_ctx_none (t : String) (doc : Option PyDoc)
    (hctx : ∀ d, doc = some d → gradCtxScan d.sents = none) :
    extract_graduation_year t doc = extract_graduation_year t none := by
  cases doc with
  | none => rfl
  | some d =>
    have h := hctx d rfl
    simp only [extract_graduation_year, h]

/-- C5: with no annotation available, or with an annotation whose
graduation-context scan yields no year, the graduation year is the maximum
of the valid recent-pattern years of the transcript, absent when there are
none; in particular a transcript containing 2015 and 2020 yields 2020, both
without an annotation and with an annotation whose only graduation-context
sentence ("... graduation context ...") contains no year. -/
theorem gradyear_fallback_max_spec :
    (∀ (t : String) (doc : Option PyDoc),
      (∀ d, doc = some d → gradCtxScan d.sents = none) →
      (extract_graduation_year t doc = none ∧ fallbackYears t = []) ∨
      (∃ y, extract_graduation_year t doc = some y ∧ y ∈ fallbackYears t ∧
        ∀ z ∈ fallbackYears t, z ≤ y)) ∧
    extract_graduation_year "Mentioned 2015 early on and then 2020 a bit later." none = some 2020 ∧
    extract_graduation_year "Mentioned 2015 early on and then 2020 a bit later."
      (some ⟨[], ["These sentences have no graduation context."]⟩) = some 2020 := by
  refine ⟨?_, by decide, by decide⟩
  intro t doc hctx
  rw [extract_graduation_year_ctx_none t doc hctx]
  cases h1 : reFindall recentYearRE true t with
    | nil =>
      left
      constructor
      · simp [extract_graduation_year, h1]
      · unfold fallbackYears; rw [h1]; rfl
    | cons a as =>
      cases h2 : fallbackYears t with
      | nil => exact Or.inl ⟨by simp [extract_graduation_year, h1, h2], rfl⟩
      | cons y ys =>
        right
        refine ⟨listMax1 y ys, by simp [extract_graduation_year, h1, h2], ?_, ?_⟩
        · rcases listMax1_mem ys y with h | h
          · rw [h]; exact List.mem_cons_self y ys
          · exact List.mem_cons_of_mem y h
        · intro z hz
          rcases List.mem_cons.mp hz with rfl | hz2
          · exact le_listMax1 ys z
          · exact listMax1_ub ys y z hz2

/-- Witness for C5 applying its universal conjunct at a concrete transcript
and a concrete annotation whose context scan yields nothing. -/
theorem gradyear_fallback_max_spec_witness :
    (extract_graduation_year "Years 2004 and 2009 appear here."
        (some (PyDoc.mk [] ["Nothing relevant at all."])) = none ∧
      fallbackYears "Years 2004 and 2009 appear here." = []) ∨
    (∃ y, extract_graduation_year "Years 2004 and 2009 appear here."
        (some (PyDoc.mk [] ["Nothing relevant at all."])) = some y ∧
      y ∈ fallbackYears "Years 2004 and 2009 appear here." ∧
      ∀ z ∈ fallbackYears "Years 2004 and 2009 appear here.", z ≤ y) :=
  gradyear_fallback_max_spec.1 "Years 2004 and 2009 appear here."
    (some (PyDoc.mk [] ["Nothing relevant at all."]))
    (fun d hd => by cases hd; decide)

/-- C10: whenever a graduation year is returned, with or without an
annotation, it lies between 1950 and 2030; in particular the recent-year
fallback can never produce 2031 to 2039, every candidate being checked by
the 1950-2030 validator. -/
theorem gradyear_range_invariant (t : String) (doc : Option PyDoc) (y : Nat)
    (h : extract_graduation_year t doc = some y) : 1950 ≤ y ∧ y ≤ 2030 := by
  have hv : validate_year y = true := by
    unfold extract_graduation_year at h
    split at h
    next y2 hy2 =>
      cases h
      cases doc with
      | some d => exact gradCtxScan_valid d.sents _ hy2
      | none => cases hy2
    next =>
      split at h
      · cases h
      · split at h
        · cases h
        next y0 ys hys =>
          cases h
          have hmem : listMax1 y0 ys ∈ fallbackYears t := by
            rw [hys]
            rcases listMax1_mem ys y0 with hm | hm
            · rw [hm]; exact List.mem_cons_self y0 ys
            · exact List.mem_cons_of_mem y0 hm
          exact fallbackYears_valid t _ hmem
  exact of_decide_eq_true hv

/-- Witness for C10 at a concrete transcript. -/
theorem gradyear_range_invariant_witness : 1950 ≤ 2015 ∧ 2015 ≤ 2030 :=
  gradyear_range_invariant "I finished my studies around 2015 in town" none 2015 (by decide)

/-- C3: the degree-in-phrase rule resolves the stock transcript to
B.Tech in Computer Science Engineering; the specialization candidates are
tried longest first (the stably length-sorted list is decreasing), and the
bachelor refinement prefers B.E. over B.Tech over the generic word, as the
third conjunct exhibits on a context containing both a B.E. and a B.Tech
indicator. -/
theorem degree_in_phrase_spec :
    extract_degree "I completed my degree in computer science engineering, it was a B.Tech" none =
      some "B.Tech in Computer Science Engineering" ∧
    List.Sorted (fun a b : String => b.length ≤ a.length) (sortLenDesc SPECIALIZATIONS) ∧
    bachelorSubtype "computer science" "i finished my b.e which people call b.tech" "" =
      "B.E. in Computer Science" := by
  refine ⟨by decide, by decide, by decide⟩

/-- C4 counterexample: an annotation whose first graduation-context sentence
contains no year at all still produces 2015, contributed by a later
context sentence, while the transcript itself has no fallback year; so a
sentence after the first graduation-context sentence does contribute to the
context-based result, contradicting the claim. -/
def gradYearDocCx : PyDoc := ⟨[], ["I graduated with honors.", "I completed it in 2015."]⟩

theorem gradyear_first_sentence_counterexample :
    extract_graduation_year "irrelevant words only" (some gradYearDocCx) = some 2015 ∧
    gradYearDocCx.sents.find? hasGradKeyword = some "I graduated with honors." ∧
    (reSearch yearRE "I graduated with honors.").isNone = true ∧
    reFindall recentYearRE true "irrelevant words only" = [] := by
  refine ⟨by decide, by decide, by decide, by decide⟩

/-- C4 amended: the context scan returns the year of the first
graduation-context sentence whose first YEAR-pattern match is valid;
earlier context sentences may be passed over when they yield no valid first
year, so sentences after the first context sentence can still contribute. -/
theorem gradyear_context_first_valid (t : String) (d : PyDoc) (pre post : List String)
    (s : String) (y : Nat)
    (hsents : d.sents = pre ++ s :: post)
    (hpre : ∀ s0 ∈ pre, hasGradKeyword s0 = false ∨ firstValidYear s0 = none)
    (hkw : hasGradKeyword s = true) (hy : firstValidYear s = some y) :
    extract_graduation_year t (some d) = some y := by
  have h1 : gradCtxScan d.sents = some y := by
    rw [hsents]; exact gradCtxScan_first pre post s y hpre hkw hy
  unfold extract_graduation_year
  simp [h1]

/-- Witness for the amended C4 at a concrete annotation. -/
def gradYearDocW : PyDoc := ⟨[], ["We talked about many things.", "I finished my degree in 2018."]⟩

theorem gradyear_context_first_valid_witness :
    extract_graduation_year "text without any year mention" (some gradYearDocW) = some 2018 :=
  gradyear_context_first_valid "text without any year mention" gradYearDocW
    ["We talked about many things."] [] "I finished my degree in 2018." 2018
    (by decide) (by decide) (by decide) (by decide)

/-- C6: the phone field is the stripped first PHONE_PATTERN match exactly
when its kept characters (digits and plus) number 10 to 15, and absent
otherwise — in particular a 9-character candidate is rejected; the concrete
ten-digit candidate is returned. -/
theorem extract_phone_digitcount_spec :
    (∀ t p, extract_phone t = some p →
      10 ≤ (phoneKeptChars p).length ∧ (phoneKeptChars p).length ≤ 15) ∧
    (∀ t m, reSearch phoneRE t = some m →
      (phoneKeptChars (pyStrip m.matched)).length = 9 → extract_phone t = none) ∧
    (∀ t m, reSearch phoneRE t = some m →
      10 ≤ (phoneKeptChars (pyStrip m.matched)).length →
      (phoneKeptChars (pyStrip m.matched)).length ≤ 15 →
      extract_phone t = some (pyStrip m.matched)) ∧
    extract_phone "You can reach me on 123-456-7890 anytime" = some "123-456-7890" ∧
    (phoneKeptChars "123-456-7890").length = 10 := by
  refine ⟨?_, ?_, ?_, by decide, by decide⟩
  · intro t p h
    unfold extract_phone at h
    split at h
    next m _ =>
      split at h
      next hv =>
        cases h
        have := of_decide_eq_true hv
        exact this
      next => cases h
    next => cases h
  · intro t m hm h9
    have hv : validate_phone (pyStrip m.matched) = false := by
      unfold validate_phone
      rw [h9]
      decide
    simp [extract_phone, hm, hv]
  · intro t m hm h10 h15
    have hv : validate_phone (pyStrip m.matched) = true := by
      unfold validate_phone
      exact decide_eq_true ⟨h10, h15⟩
    simp [extract_phone, hm, hv]

/-- Witness for C6 applying its first conjunct at the concrete match. -/
theorem extract_phone_digitcount_witness :
    10 ≤ (phoneKeptChars "123-456-7890").length ∧ (phoneKeptChars "123-456-7890").length ≤ 15 :=
  extract_phone_digitcount_spec.1 "You can reach me on 123-456-7890 anytime" "123-456-7890"
    (by decide)

/-- C7: the three duration patterns are tried in fixed order and the first
match whose count lies in (0, 50] is formatted as the count followed by
years; on the stock transcript the first-priority pattern wins with 5. -/
theorem extract_experience_first_match_spec :
    extract_experience "I have 5 years of experience and mentioned 3 years in another context" =
      some "5 years" ∧
    (∀ t s, extract_experience t = some s →
      ∃ n : Nat, 0 < n ∧ n ≤ 50 ∧ s = toString n ++ " years") :=
  ⟨by decide, fun t s h => experienceGo_sound _ t s h⟩

/-- Witness for C7 applying its second conjunct at a third-pattern match. -/
theorem extract_experience_first_match_witness :
    ∃ n : Nat, 0 < n ∧ n ≤ 50 ∧ "7 years" = toString n ++ " years" :=
  extract_experience_first_match_spec.2 "Worked 7 years in retail" "7 years" (by decide)

/-- C8: skills are matched case-insensitively, single-word ones against the
whitespace-token set and multi-word ones by substring search, and the
result joins the title-cased findings sorted and de-duplicated; the second
conjunct states that the underlying list is strictly ascending for every
transcript, that is, sorted and duplicate-free. -/
theorem extract_skills_sorted_spec :
    extract_skills "I know Python and have used AWS and Docker" = some "Aws, Docker, Python" ∧
    (∀ t, List.Sorted (fun a b => strLt a b = true) (uniqueSkillsList t)) :=
  ⟨by decide, fun t => sortedUnique_sorted (foundSkillsList t)⟩

/-- C9 counterexample: an ORG span that is the bare college-type keyword
Institute is returned verbatim — the code only rejects the three bare words
university, college and school — contradicting the claim that a bare
college-type keyword is never returned. -/
def collegeDocCx : PyDoc := ⟨[⟨"Institute", "ORG"⟩], []⟩

theorem college_bare_keyword_counterexample :
    extract_college "a transcript mentioning things" (some collegeDocCx) = some "Institute" ∧
    COLLEGE_KEYWORDS.contains (pyLower "Institute") = true := by
  refine ⟨by decide, by decide⟩

/-- C9 amended: with an annotation, extract_college returns the first ORG
span that contains a college-type keyword, is 5 to 100 characters long, and
is not (lowercased) one of the three bare words university, college,
school, after stripping the boilerplate lead-ins; bare Institute or Academy
spans are not excluded. -/
theorem college_first_qualifying_org (t : String) (d : PyDoc) (pre post : List String)
    (org : String)
    (horgs : collegeOrgs d = pre ++ org :: post)
    (hpre : ∀ o ∈ pre, collegeQualifies o = false)
    (h : collegeQualifies org = true) :
    extract_college t (some d) = some (cleanLeadIns org) := by
  show collegeScan (collegeOrgs d) = some (cleanLeadIns org)
  rw [horgs]
  exact collegeScan_first pre post org hpre h

/-- Witness for the amended C9: the first ORG span is not a college, the
second qualifies. -/
def collegeDocW : PyDoc := ⟨[⟨"the ACME Corporation", "ORG"⟩, ⟨"Anna University", "ORG"⟩], []⟩

theorem college_first_qualifying_org_witness :
    extract_college "some long enough transcript" (some collegeDocW) =
      some (cleanLeadIns "Anna University") :=
  college_first_qualifying_org "some long enough transcript" collegeDocW
    ["the ACME Corporation"] [] "Anna University" (by decide) (by decide) (by decide)
